import Mathlib

/-!
Verification of the voilab-image core (src/voilab-image.js): geometry
planners, per-variant transform planning, filename construction and the
batch orchestration of the upload entry point.

JavaScript numbers are modelled as exact rationals extended with the
special values Infinity, -Infinity and NaN.  Binary64 rounding error is
not modelled; all ratio arithmetic is exact.  The negative zero of IEEE
arithmetic is identified with zero.
-/

set_option autoImplicit false

namespace VoilabImage

/-- Model of a JavaScript number: a finite value (exact rational), the two
infinities, or NaN. -/
inductive JsVal where
  | num (q : ℚ)
  | inf
  | negInf
  | nan
deriving DecidableEq, Repr

/-- JavaScript division, including division by zero (which yields an
infinity or NaN, never an exception). -/
def jsDiv : JsVal → JsVal → JsVal
  | .nan, _ => .nan
  | _, .nan => .nan
  | .num a, .num b =>
      if b = 0 then (if 0 < a then .inf else if a < 0 then .negInf else .nan)
      else .num (a / b)
  | .num _, .inf => .num 0
  | .num _, .negInf => .num 0
  | .inf, .num b => if b < 0 then .negInf else .inf
  | .negInf, .num b => if b < 0 then .inf else .negInf
  | .inf, .inf => .nan
  | .inf, .negInf => .nan
  | .negInf, .inf => .nan
  | .negInf, .negInf => .nan

/-- JavaScript multiplication on the number model. -/
def jsMul : JsVal → JsVal → JsVal
  | .nan, _ => .nan
  | _, .nan => .nan
  | .num a, .num b => .num (a * b)
  | .num a, .inf => if 0 < a then .inf else if a < 0 then .negInf else .nan
  | .num a, .negInf => if 0 < a then .negInf else if a < 0 then .inf else .nan
  | .inf, .num b => if 0 < b then .inf else if b < 0 then .negInf else .nan
  | .negInf, .num b => if 0 < b then .negInf else if b < 0 then .inf else .nan
  | .inf, .inf => .inf
  | .inf, .negInf => .negInf
  | .negInf, .inf => .negInf
  | .negInf, .negInf => .inf

/-- JavaScript strict less-than; any comparison involving NaN is false. -/
def jsLt : JsVal → JsVal → Bool
  | .nan, _ => false
  | _, .nan => false
  | .num a, .num b => decide (a < b)
  | .num _, .inf => true
  | .num _, .negInf => false
  | .inf, .num _ => false
  | .negInf, .num _ => true
  | .inf, .inf => false
  | .inf, .negInf => false
  | .negInf, .inf => true
  | .negInf, .negInf => false

/-- JavaScript strict greater-than. -/
def jsGt (a b : JsVal) : Bool := jsLt b a

/-- JavaScript greater-or-equal; any comparison involving NaN is false. -/
def jsGe : JsVal → JsVal → Bool
  | .nan, _ => false
  | _, .nan => false
  | .num a, .num b => decide (b ≤ a)
  | .num _, .inf => false
  | .num _, .negInf => true
  | .inf, .num _ => true
  | .negInf, .num _ => false
  | .inf, .inf => true
  | .inf, .negInf => true
  | .negInf, .inf => false
  | .negInf, .negInf => true

/-- JavaScript Math.round: round half toward positive infinity on finite
values; the special values are returned unchanged. -/
def jsRound : JsVal → JsVal
  | .num q => .num ((⌊q + 1/2⌋ : ℤ) : ℚ)
  | .inf => .inf
  | .negInf => .negInf
  | .nan => .nan

/-- A planned width/height pair, as returned by every geometry planner. -/
structure Dim where
  width : JsVal
  height : JsVal
deriving DecidableEq, Repr

/-- Translation of getCropDimensions (src/voilab-image.js lines 139-159),
the cover policy: the image keeps its aspect ratio and covers the
width x height box, so that a later crop to the box is possible. -/
def getCropDimensions (imgW imgH width height : JsVal) : Dim :=
  let rImg := jsDiv imgW imgH
  let rCrop := jsDiv width height
  if jsGt rImg rCrop then
    let h := height
    let w := jsMul h rImg
    ⟨jsRound w, jsRound h⟩
  else
    let w := width
    let h := jsDiv w rImg
    ⟨jsRound w, jsRound h⟩

/-- Translation of adaptDimensions (src/voilab-image.js lines 169-198),
the contain policy: fit the image inside the width x height box.  The two
sequential if statements of each branch are translated by shadowing, the
second test reading the values updated by the first. -/
def adaptDimensions (imgW imgH width height : JsVal) : Dim :=
  let rBox := jsDiv width height
  let rImg := jsDiv imgW imgH
  if jsGt rBox rImg then
    let s := if jsLt imgH height then (imgW, imgH) else (width, height)
    let width := s.1
    let height := s.2
    let width := if jsGt imgH height then jsDiv (jsMul imgW height) imgH else width
    ⟨jsRound width, jsRound height⟩
  else
    let s := if jsLt imgW width then (imgW, imgH) else (width, height)
    let width := s.1
    let height := s.2
    let height := if jsGe imgW width then jsDiv (jsMul imgH width) imgW else height
    ⟨jsRound width, jsRound height⟩

/-- Translation of getDimensionsWidthMax (src/voilab-image.js lines
200-210): scale so the width equals the given maximum, clamping to the
natural size when the derived height would exceed it. -/
def getDimensionsWidthMax (imgW imgH width : JsVal) : Dim :=
  let height := jsDiv (jsMul imgH width) imgW
  let s := if jsGt height imgH then (imgW, imgH) else (width, height)
  ⟨jsRound s.1, jsRound s.2⟩

/-- Translation of getDimensionsHeightMax (src/voilab-image.js lines
212-222): scale so the height equals the given maximum, clamping to the
natural size when the derived width would exceed it. -/
def getDimensionsHeightMax (imgW imgH height : JsVal) : Dim :=
  let width := jsDiv (jsMul imgW height) imgH
  let s := if jsGt width imgW then (imgW, imgH) else (width, height)
  ⟨jsRound s.1, jsRound s.2⟩

/-- The polymorphic adapt parameter of a variant: absent, a boolean, a
single number, or an object with explicit width and height. -/
inductive Adapt where
  | absent
  | bool (b : Bool)
  | number (n : ℤ)
  | obj (w h : ℤ)
deriving DecidableEq, Repr

/-- JavaScript truthiness of the adapt value, as tested by if (c.adapt). -/
def adaptTruthy : Adapt → Bool
  | .absent => false
  | .bool b => b
  | .number n => decide (n ≠ 0)
  | .obj _ _ => true

/-- One entry of config.files (src/voilab-image.js lines 18-25): the
specification of a single output variant.  Absent JSON fields are none. -/
structure VariantSpec where
  name : String := ""
  key : Option String := none
  format : Option String := none
  width : Option ℤ := none
  height : Option ℤ := none
  top : Option ℤ := none
  left : Option ℤ := none
  crop : Bool := false
  adapt : Adapt := .absent
  omitExtension : Bool := false
  colorPad : Option String := none
deriving DecidableEq, Repr

/-- The batch configuration passed to upload (src/voilab-image.js lines
14-27): default name format, default omitExtension, default pad color and
the list of variants.  files is none when the field is absent or not an
array. -/
structure Config where
  format : Option String := none
  omitExtension : Bool := false
  colorPad : Option String := none
  files : Option (List VariantSpec) := none
deriving DecidableEq, Repr

/-- The global configuration closed over by the service factory; only the
static URL matters to the modelled claims. -/
structure GlobalConfig where
  staticUrl : String := ""
deriving DecidableEq, Repr

/-- JavaScript a-or-b defaulting on an optional string: a falsy value, that
is an absent field or the empty string, falls through to the default. -/
def jsOrS (a : Option String) (d : String) : String :=
  match a with
  | some s => if s = "" then d else s
  | none => d

/-- JavaScript truthy coercion of an optional integer field, as in the
source line width = c.width or-else false: an absent field or zero becomes
absent (false). -/
def truthyInt (a : Option ℤ) : Option ℤ :=
  match a with
  | some n => if n = 0 then none else some n
  | none => none

/-- One operation pushed onto the codec batch.  The two crop forms mirror
the two call shapes of the source: the four-argument call gives the full
rectangle, the two-argument call gives only a size.  resize carries the
planner output verbatim. -/
inductive BatchOp where
  | contain (w h : ℤ) (pad : String)
  | containRaw (w h : ℤ) (pad : String)
  | resize (d : Dim)
  | crop4 (l t r b : ℤ)
  | crop2 (w h : Option ℤ)
deriving DecidableEq, Repr

/-- The contain call dispatched on the shape of the adapt value
(src/voilab-image.js lines 71-78).  An object with a falsy width or height
fails the first test and falls to the final branch, which passes the raw
object to the codec; that degenerate call is recorded as containRaw. -/
def adaptOp (a : Adapt) (w h : ℤ) (pad : String) : BatchOp :=
  match a with
  | .obj aw ah => if aw ≠ 0 ∧ ah ≠ 0 then .contain aw ah pad else .containRaw aw ah pad
  | .bool _ => .contain (max w h) (max w h) pad
  | .number n => .contain n n pad
  | .absent => .contain 0 0 pad

/-- The crop pass (src/voilab-image.js lines 99-104): positive requested
offsets are used verbatim in a four-argument crop; otherwise the
two-argument crop is issued.  JavaScript addition coerces a false
dimension to zero, hence getD 0. -/
def cropOp (width height : Option ℤ) (crop_top crop_left : ℤ) : BatchOp :=
  if 0 < crop_top ∨ 0 < crop_left then
    .crop4 crop_left crop_top (crop_left + width.getD 0) (crop_top + height.getD 0)
  else
    .crop2 width height

/-- The rectangle a crop operation takes, with left, top, right and bottom
edges.  The two-argument crop means the region from the origin, per the
external codec interface of the specification (cropRegion(w,h) crops from
(0,0)). -/
def cropRegion : BatchOp → Option (ℤ × ℤ × ℤ × ℤ)
  | .crop4 l t r b => some (l, t, r, b)
  | .crop2 (some w) (some h) => some (0, 0, w, h)
  | _ => none

/-- Translation of the geometry portion of one variant task
(src/voilab-image.js lines 57-106): the list of operations pushed onto the
codec batch before the encode step, for a source image of natural size
imgW x imgH. -/
def planVariantOps (imgW imgH : ℤ) (cfg : Config) (c : VariantSpec) : List BatchOp :=
  let width := truthyInt c.width
  let height := truthyInt c.height
  let crop_top := c.top.getD 0
  let crop_left := c.left.getD 0
  let colorPad := jsOrS c.colorPad (jsOrS cfg.colorPad "white")
  if width.isSome || height.isSome then
    (match width, height with
      | some w, some h =>
        if c.crop then
          if adaptTruthy c.adapt then
            [adaptOp c.adapt w h colorPad]
          else
            [BatchOp.resize (getCropDimensions (.num (imgW : ℚ)) (.num (imgH : ℚ))
              (.num (w : ℚ)) (.num (h : ℚ)))]
        else
          [BatchOp.resize (adaptDimensions (.num (imgW : ℚ)) (.num (imgH : ℚ))
            (.num (w : ℚ)) (.num (h : ℚ)))]
      | some w, none =>
        [BatchOp.resize (getDimensionsWidthMax (.num (imgW : ℚ)) (.num (imgH : ℚ))
          (.num (w : ℚ)))]
      | none, some h =>
        [BatchOp.resize (getDimensionsHeightMax (.num (imgW : ℚ)) (.num (imgH : ℚ))
          (.num (h : ℚ)))]
      | none, none => [])
    ++ (if c.crop then [cropOp width height crop_top crop_left] else [])
  else
    []

/-- The named artifact of one successful variant task. -/
structure VariantResult where
  url : String
  filename : String
deriving DecidableEq, Repr

/-- The batch default name format (src/voilab-image.js line 37). -/
def default_format (cfg : Config) : String := jsOrS cfg.format ""

/-- Filename construction (src/voilab-image.js lines 114-116): the compiled
variant format (falling back to the batch default) applied to the variant,
followed by a dot and the source type unless an omitExtension flag is
set.  The external templater is the abstract function compile. -/
def mkFilename (cfg : Config) (type : String)
    (compile : String → VariantSpec → String) (c : VariantSpec) : String :=
  compile (jsOrS c.format (default_format cfg)) c ++
    (if c.omitExtension || cfg.omitExtension then "" else "." ++ type)

/-- The key a variant result is stored under (src/voilab-image.js line
121): the variant key, falling back to its name. -/
def mkKey (c : VariantSpec) : String := jsOrS c.key c.name

/-- The success value of one variant task (src/voilab-image.js lines
117-125): the keyed url and filename, for the storage path returned by the
external storage client. -/
def runVariant (g : GlobalConfig) (cfg : Config) (type : String)
    (compile : String → VariantSpec → String) (path : String) (c : VariantSpec) :
    String × VariantResult :=
  (mkKey c, ⟨g.staticUrl ++ path, mkFilename cfg type compile c⟩)

/-- A batch-level error: source type not derivable, files missing or not an
array, or the failure of some task. -/
inductive UploadError (E : Type) where
  | unknownType
  | invalidConfig
  | task (e : E)
deriving DecidableEq, Repr

/-- Aggregation of task outcomes, listed in observation order.  Modelled
from the spec: the async.parallelLimit collaborator is external code; per
the specification the first failing task aborts the batch, later outcomes
are not reported, and on full success all results are collected. -/
def collectResults {E R : Type} : List (Except E R) → Except E (List R)
  | [] => .ok []
  | .error e :: _ => .error e
  | .ok r :: rest => (collectResults rest).map (fun m => r :: m)

/-- Translation of the upload entry point (src/voilab-image.js lines
33-48 and 131-136): validate the source type, validate the files list,
then run one task per variant and either return the keyed results or the
first error.  The per-task work is the abstract runTask, so the theorems
quantify over the external codec and storage outcomes. -/
def upload {E R : Type} (type : String) (cfg : Config)
    (runTask : VariantSpec → Except E (String × R)) :
    Except (UploadError E) (List (String × R)) :=
  if type = "" then
    .error .unknownType
  else
    match cfg.files with
    | none => .error .invalidConfig
    | some fs =>
      match collectResults (fs.map runTask) with
      | .error e => .error (.task e)
      | .ok m => .ok m

/-- Concrete single-variant fixture used to instantiate the naming
theorem. -/
def c9 : VariantSpec := { name := "thumb" }

/-- Concrete batch configuration fixture with a default name format. -/
def cfg9 : Config := { format := some "base", files := some [c9] }

/-- Concrete global configuration fixture. -/
def g9 : GlobalConfig := { staticUrl := "u/" }

/-- A planner output whose two components are integers obtained by
rounding some exact rational value to the nearest integer (half up), both
nonnegative. -/
def roundedNonneg (d : Dim) : Prop :=
  ∃ w0 h0 : ℚ, d = ⟨.num ((⌊w0 + 1/2⌋ : ℤ) : ℚ), .num ((⌊h0 + 1/2⌋ : ℤ) : ℚ)⟩ ∧
    0 ≤ (⌊w0 + 1/2⌋ : ℤ) ∧ 0 ≤ (⌊h0 + 1/2⌋ : ℤ)

@[simp] theorem jsDiv_num_of_ne {a b : ℚ} (h : b ≠ 0) :
    jsDiv (.num a) (.num b) = .num (a / b) := by
  simp [jsDiv, h]

@[simp] theorem jsMul_num (a b : ℚ) : jsMul (.num a) (.num b) = .num (a * b) := rfl

@[simp] theorem jsLt_num (a b : ℚ) : jsLt (.num a) (.num b) = decide (a < b) := rfl

@[simp] theorem jsGt_num (a b : ℚ) : jsGt (.num a) (.num b) = decide (b < a) := rfl

@[simp] theorem jsGe_num (a b : ℚ) : jsGe (.num a) (.num b) = decide (b ≤ a) := rfl

@[simp] theorem jsRound_num (q : ℚ) : jsRound (.num q) = .num ((⌊q + 1/2⌋ : ℤ) : ℚ) := rfl

/-- Evaluation helper for the floor function on rational literals. -/
theorem floor_eval {q : ℚ} {n : ℤ} (h1 : (n : ℚ) ≤ q) (h2 : q < n + 1) : ⌊q⌋ = n := by
  rw [Int.floor_eq_iff]
  exact ⟨h1, by exact_mod_cast h2⟩

/-- Rounding an integer-valued rational is the identity. -/
theorem floor_int_add_half (n : ℤ) : ⌊(n : ℚ) + 1/2⌋ = n :=
  floor_eval (by norm_num) (by norm_num)

/-- Rounding never drops below an integer lower bound of the exact value. -/
theorem le_floor_round {n : ℤ} {q : ℚ} (h : (n : ℚ) ≤ q) : n ≤ ⌊q + 1/2⌋ :=
  Int.le_floor.2 (by linarith)

/-- Rounding a nonnegative value gives a nonnegative integer. -/
theorem floor_round_nonneg {q : ℚ} (h : 0 ≤ q) : 0 ≤ ⌊q + 1/2⌋ :=
  le_floor_round (by exact_mod_cast h)

/-- Collecting a list of outcomes that are all successes yields them all. -/
theorem collectResults_map_ok {E R : Type} (l : List R) :
    collectResults (l.map (Except.ok : R → Except E R)) = .ok l := by
  induction l with
  | nil => rfl
  | cons x xs ih => simp [collectResults, Except.map, ih]

/-- Collecting pointwise-successful outcomes yields all the values. -/
theorem collectResults_map_ok2 {E R S : Type} (f : S → R) (l : List S) :
    collectResults (l.map (fun x => (Except.ok (f x) : Except E R))) = .ok (l.map f) := by
  induction l with
  | nil => rfl
  | cons x xs ih => simp [collectResults, Except.map, ih]

/-- Aggregation dichotomy: either every outcome is a success and all are
collected in order, or the result is exactly the first error of the list
and no success is reported. -/
theorem collectResults_dichotomy {E R : Type} (l : List (Except E R)) :
    (∃ m, collectResults l = .ok m ∧ l = m.map Except.ok) ∨
    (∃ e pre suf, collectResults l = .error e ∧ l = pre ++ .error e :: suf ∧
      ∀ x ∈ pre, x.isOk = true) := by
  induction l with
  | nil => exact Or.inl ⟨[], rfl, rfl⟩
  | cons x rest ih =>
    cases x with
    | error e => exact Or.inr ⟨e, [], rest, rfl, rfl, by simp⟩
    | ok r =>
      rcases ih with ⟨m, hm, hl⟩ | ⟨e, pre, suf, hc, hl, hpre⟩
      · exact Or.inl ⟨r :: m, by simp [collectResults, Except.map, hm], by simp [hl]⟩
      · refine Or.inr ⟨e, Except.ok r :: pre, suf, ?_, by simp [hl], ?_⟩
        · simp [collectResults, Except.map, hc]
        · intro x hx
          rcases List.mem_cons.1 hx with h | h
          · subst h; rfl
          · exact hpre x h

/-- C1: with a 100 x 100 image and a 200 x 100 contain box the container
ratio (2) exceeds the image ratio (1) and the image height equals the
target height, so neither inner test of adaptDimensions fires; the code
returns the raw box 200 x 100, upscaling the width past the natural 100
and distorting the aspect ratio, where the intended contain policy
returns the natural size. -/
theorem adaptDimensions_equal_height_upscales :
    adaptDimensions (.num 100) (.num 100) (.num 200) (.num 100) = ⟨.num 200, .num 100⟩ := by
  norm_num [adaptDimensions, floor_int_add_half 100, floor_int_add_half 200]

/-- C2 counterexample: an empty files list passes the isArray check, so
upload succeeds with an empty mapping instead of failing with the invalid
configuration error; the always-failing task oracle shows no task is even
consulted. -/
theorem upload_empty_files_not_error :
    upload "jpg" ({ files := some [] } : Config)
      (fun _ => (Except.error () : Except Unit (String × Unit))) = .ok [] := by
  simp [upload, collectResults]

/-- C2 amended: a missing (or non-array) files list fails with the invalid
configuration error before any task is consulted, while an empty files
list is accepted and yields an empty result mapping. -/
theorem upload_files_validation {E R : Type} (type : String) (cfg cfg2 : Config)
    (runTask : VariantSpec → Except E (String × R))
    (htype : type ≠ "") (hfs : cfg.files = none) (hfs2 : cfg2.files = some []) :
    upload type cfg runTask = .error .invalidConfig ∧
    upload type cfg2 runTask = .ok [] := by
  constructor
  · simp [upload, htype, hfs]
  · simp [upload, htype, hfs2, collectResults]

/-- Witness for the amended C2 theorem at a concrete configuration. -/
theorem upload_files_validation_witness :
    ("jpg" : String) ≠ "" ∧
    (upload "jpg" ({} : Config)
        (fun _ => (Except.error () : Except Unit (String × Unit))) = .error .invalidConfig ∧
      upload "jpg" ({ files := some [] } : Config)
        (fun _ => (Except.error () : Except Unit (String × Unit))) = .ok []) :=
  ⟨by simp, upload_files_validation "jpg" {} { files := some [] } _ (by simp) rfl rfl⟩

/-- C3 counterexample: with a zero image height the cover planner signals
no error at all; it returns a result whose width is Infinity. -/
theorem getCropDimensions_zero_imgH_garbage :
    getCropDimensions (.num 100) (.num 0) (.num 100) (.num 100) = ⟨.inf, .num 100⟩ := by
  norm_num [getCropDimensions, jsDiv, jsMul, jsGt, jsLt, jsRound, floor_int_add_half 100]

/-- C3 amended: the planners are total and never signal a geometry error;
dividing by a zero image height makes the cover planner return an
Infinity width for every positive image width and target box. -/
theorem getCropDimensions_zero_imgH_no_error (a W H : ℤ)
    (ha : 0 < a) (hW : 0 < W) (hH : 0 < H) :
    getCropDimensions (.num (a : ℚ)) (.num 0) (.num (W : ℚ)) (.num (H : ℚ)) =
      ⟨.inf, .num (H : ℚ)⟩ := by
  have ha' : (0 : ℚ) < (a : ℚ) := by exact_mod_cast ha
  have hHpos : (0 : ℚ) < (H : ℚ) := by exact_mod_cast hH
  norm_num [getCropDimensions, jsDiv, jsMul, jsGt, jsLt, jsRound, ha', hHpos, hHpos.ne',
    floor_int_add_half]

/-- Witness for the amended C3 theorem at a concrete zero-height image. -/
theorem getCropDimensions_zero_imgH_no_error_witness :
    (0:ℤ) < 100 ∧
    getCropDimensions (.num ((100:ℤ) : ℚ)) (.num 0) (.num ((100:ℤ) : ℚ)) (.num ((100:ℤ) : ℚ)) =
      ⟨.inf, .num ((100:ℤ) : ℚ)⟩ :=
  ⟨by norm_num,
    getCropDimensions_zero_imgH_no_error 100 100 100 (by norm_num) (by norm_num) (by norm_num)⟩

/-- C6: when both requested offsets (after the or-zero coercion) are not
positive the crop pass takes the region from the origin, the top-left
cropW x cropH rectangle of the canvas; as soon as one requested offset is
positive both are used verbatim. -/
theorem cropOp_offsets (w h : ℤ) (top left : Option ℤ) :
    (top.getD 0 ≤ 0 → left.getD 0 ≤ 0 →
      cropRegion (cropOp (some w) (some h) (top.getD 0) (left.getD 0)) = some (0, 0, w, h)) ∧
    (0 < top.getD 0 ∨ 0 < left.getD 0 →
      cropRegion (cropOp (some w) (some h) (top.getD 0) (left.getD 0)) =
        some (left.getD 0, top.getD 0, left.getD 0 + w, top.getD 0 + h)) := by
  constructor
  · intro ht hl
    rw [cropOp, if_neg (by push_neg; omega)]
    rfl
  · intro hor
    rw [cropOp, if_pos hor]
    simp [cropRegion]

/-- Witness for C6 at the concrete canvas of the specification example:
requested offsets zero give the top-left 100 x 100 region, offsets 10/20
are used verbatim. -/
theorem cropOp_offsets_witness :
    ((some (0:ℤ)).getD 0 ≤ 0 ∧ (some (0:ℤ)).getD 0 ≤ 0 ∧
      cropRegion (cropOp (some 100) (some 100) ((some (0:ℤ)).getD 0) ((some (0:ℤ)).getD 0)) =
        some (0, 0, 100, 100)) ∧
    (0 < (some (10:ℤ)).getD 0 ∧
      cropRegion (cropOp (some 100) (some 100) ((some (10:ℤ)).getD 0) ((some (20:ℤ)).getD 0)) =
        some ((some (20:ℤ)).getD 0, (some (10:ℤ)).getD 0,
          (some (20:ℤ)).getD 0 + 100, (some (10:ℤ)).getD 0 + 100)) :=
  ⟨⟨by norm_num, by norm_num,
      (cropOp_offsets 100 100 (some 0) (some 0)).1 (by norm_num) (by norm_num)⟩,
    ⟨by norm_num, (cropOp_offsets 100 100 (some 10) (some 20)).2 (Or.inl (by norm_num))⟩⟩

/-- C10: when the width and the height of a variant are both absent or
zero, the truthy coercion leaves no dimension, the whole resize-and-crop
block is skipped (even with crop set) and no operation is pushed onto the
codec batch: the image is only decoded and re-encoded. -/
theorem planVariantOps_no_dims_no_ops (imgW imgH : ℤ) (cfg : Config) (c : VariantSpec)
    (hw : c.width = none ∨ c.width = some 0) (hh : c.height = none ∨ c.height = some 0) :
    planVariantOps imgW imgH cfg c = [] := by
  have hw' : truthyInt c.width = none := by rcases hw with h | h <;> simp [truthyInt, h]
  have hh' : truthyInt c.height = none := by rcases hh with h | h <;> simp [truthyInt, h]
  simp [planVariantOps, hw', hh']

/-- Witness for C10: a variant with zero width, absent height and the crop
flag set produces no codec operation. -/
theorem planVariantOps_no_dims_no_ops_witness :
    planVariantOps 800 600 {} { name := "orig", width := some 0, crop := true } = [] :=
  planVariantOps_no_dims_no_ops 800 600 {} { name := "orig", width := some 0, crop := true }
    (Or.inr rfl) (Or.inl rfl)

/-- C5: for positive inputs the cover planner returns integers at least
target minus one on both axes (in fact at least the target), both obtained
by rounding exact values whose ratio is exactly the image ratio, and the
branch selection fixes the height at the target height when the image
ratio exceeds the box ratio and fixes the width at the target width
otherwise (ties included). -/
theorem getCropDimensions_cover_spec (a b W H : ℤ)
    (ha : 0 < a) (hb : 0 < b) (hW : 0 < W) (hH : 0 < H) :
    ∃ w h : ℤ,
      getCropDimensions (.num (a : ℚ)) (.num (b : ℚ)) (.num (W : ℚ)) (.num (H : ℚ)) =
        ⟨.num (w : ℚ), .num (h : ℚ)⟩ ∧
      W - 1 ≤ w ∧ H - 1 ≤ h ∧
      (∃ w0 h0 : ℚ, h0 ≠ 0 ∧ w = ⌊w0 + 1/2⌋ ∧ h = ⌊h0 + 1/2⌋ ∧ w0 / h0 = (a : ℚ) / b) ∧
      ((W : ℚ) / H < (a : ℚ) / b → h = H) ∧
      (¬ (W : ℚ) / H < (a : ℚ) / b → w = W) := by
  have ha' : (0 : ℚ) < (a : ℚ) := by exact_mod_cast ha
  have hb' : (0 : ℚ) < (b : ℚ) := by exact_mod_cast hb
  have hW' : (0 : ℚ) < (W : ℚ) := by exact_mod_cast hW
  have hH' : (0 : ℚ) < (H : ℚ) := by exact_mod_cast hH
  have hab : (0 : ℚ) < (a : ℚ) / b := by positivity
  simp only [getCropDimensions, jsDiv_num_of_ne hb'.ne', jsDiv_num_of_ne hH'.ne',
    jsGt_num, jsMul_num, jsRound_num, decide_eq_true_eq]
  by_cases hc : (W : ℚ) / H < (a : ℚ) / b
  · rw [if_pos hc]
    refine ⟨⌊(H : ℚ) * ((a : ℚ) / b) + 1/2⌋, H, ?_, ?_, by omega, ?_, fun _ => rfl,
      fun hcon => absurd hc hcon⟩
    · rw [floor_int_add_half H]
    · have hWle : (W : ℚ) ≤ (H : ℚ) * ((a : ℚ) / b) := by
        have := (div_lt_iff₀ hH').1 hc
        nlinarith
      have := le_floor_round hWle
      omega
    · refine ⟨(H : ℚ) * ((a : ℚ) / b), (H : ℚ), hH'.ne', rfl, (floor_int_add_half H).symm, ?_⟩
      field_simp
      ring
  · rw [if_neg hc]
    simp only [jsDiv_num_of_ne hab.ne', jsRound_num]
    refine ⟨W, ⌊(W : ℚ) / ((a : ℚ) / b) + 1/2⌋, ?_, by omega, ?_, ?_,
      fun hcon => absurd hcon hc, fun _ => rfl⟩
    · rw [floor_int_add_half W]
    · have hHle : (H : ℚ) ≤ (W : ℚ) / ((a : ℚ) / b) := by
        rw [le_div_iff₀ hab]
        have hle : (a : ℚ) / b ≤ (W : ℚ) / H := not_lt.1 hc
        have h2 : (H : ℚ) * ((a : ℚ) / b) ≤ (H : ℚ) * ((W : ℚ) / H) :=
          mul_le_mul_of_nonneg_left hle hH'.le
        have h3 : (H : ℚ) * ((W : ℚ) / H) = (W : ℚ) := by
          field_simp
        linarith
      have := le_floor_round hHle
      omega
    · refine ⟨(W : ℚ), (W : ℚ) / ((a : ℚ) / b), ?_, (floor_int_add_half W).symm, rfl, ?_⟩
      · positivity
      · exact div_div_cancel₀ hW'.ne'

/-- Witness for C5 at the 800 x 600 source and 100 x 100 target of the
end-to-end specification scenario. -/
theorem getCropDimensions_cover_spec_witness :
    (0:ℤ) < 800 ∧
    (∃ w h : ℤ,
      getCropDimensions (.num ((800:ℤ) : ℚ)) (.num ((600:ℤ) : ℚ)) (.num ((100:ℤ) : ℚ))
          (.num ((100:ℤ) : ℚ)) = ⟨.num (w : ℚ), .num (h : ℚ)⟩ ∧
      (100:ℤ) - 1 ≤ w ∧ (100:ℤ) - 1 ≤ h ∧
      (∃ w0 h0 : ℚ, h0 ≠ 0 ∧ w = ⌊w0 + 1/2⌋ ∧ h = ⌊h0 + 1/2⌋ ∧
        w0 / h0 = ((800:ℤ) : ℚ) / ((600:ℤ) : ℚ)) ∧
      (((100:ℤ) : ℚ) / ((100:ℤ) : ℚ) < ((800:ℤ) : ℚ) / ((600:ℤ) : ℚ) → h = 100) ∧
      (¬ ((100:ℤ) : ℚ) / ((100:ℤ) : ℚ) < ((800:ℤ) : ℚ) / ((600:ℤ) : ℚ) → w = 100)) :=
  ⟨by norm_num,
    getCropDimensions_cover_spec 800 600 100 100 (by norm_num) (by norm_num) (by norm_num)
      (by norm_num)⟩

/-- Cover planner outputs are rounded and nonnegative on positive inputs. -/
theorem getCropDimensions_nonneg (a b W H : ℤ)
    (ha : 0 < a) (hb : 0 < b) (hW : 0 < W) (hH : 0 < H) :
    roundedNonneg (getCropDimensions (.num (a : ℚ)) (.num (b : ℚ)) (.num (W : ℚ))
      (.num (H : ℚ))) := by
  have ha' : (0 : ℚ) < (a : ℚ) := by exact_mod_cast ha
  have hb' : (0 : ℚ) < (b : ℚ) := by exact_mod_cast hb
  have hW' : (0 : ℚ) < (W : ℚ) := by exact_mod_cast hW
  have hH' : (0 : ℚ) < (H : ℚ) := by exact_mod_cast hH
  have hab : (0 : ℚ) < (a : ℚ) / b := by positivity
  simp only [getCropDimensions, jsDiv_num_of_ne hb'.ne', jsDiv_num_of_ne hH'.ne',
    jsGt_num, jsMul_num, jsRound_num, decide_eq_true_eq]
  by_cases hc : (W : ℚ) / H < (a : ℚ) / b
  · rw [if_pos hc]
    exact ⟨(H : ℚ) * ((a : ℚ) / b), (H : ℚ), rfl,
      floor_round_nonneg (by positivity), floor_round_nonneg (by positivity)⟩
  · rw [if_neg hc]
    simp only [jsDiv_num_of_ne hab.ne', jsRound_num]
    exact ⟨(W : ℚ), (W : ℚ) / ((a : ℚ) / b), rfl,
      floor_round_nonneg (by positivity), floor_round_nonneg (by positivity)⟩

/-- Contain planner outputs are rounded and nonnegative on positive
inputs. -/
theorem adaptDimensions_nonneg (a b W H : ℤ)
    (ha : 0 < a) (hb : 0 < b) (hW : 0 < W) (hH : 0 < H) :
    roundedNonneg (adaptDimensions (.num (a : ℚ)) (.num (b : ℚ)) (.num (W : ℚ))
      (.num (H : ℚ))) := by
  have ha' : (0 : ℚ) < (a : ℚ) := by exact_mod_cast ha
  have hb' : (0 : ℚ) < (b : ℚ) := by exact_mod_cast hb
  have hW' : (0 : ℚ) < (W : ℚ) := by exact_mod_cast hW
  have hH' : (0 : ℚ) < (H : ℚ) := by exact_mod_cast hH
  simp only [adaptDimensions, jsDiv_num_of_ne hb'.ne', jsDiv_num_of_ne hH'.ne',
    jsGt_num, jsLt_num, jsGe_num, jsMul_num, jsRound_num, decide_eq_true_eq]
  by_cases h1 : (a : ℚ) / b < (W : ℚ) / H
  · rw [if_pos h1]
    by_cases h2 : (b : ℚ) < (H : ℚ)
    · simp only [h2, if_true, jsGt_num, decide_eq_true_eq, lt_self_iff_false, if_false,
        jsRound_num]
      exact ⟨(a : ℚ), (b : ℚ), rfl,
        floor_round_nonneg ha'.le, floor_round_nonneg hb'.le⟩
    · simp only [h2, if_false]
      by_cases h3 : (H : ℚ) < (b : ℚ)
      · simp only [jsGt_num, decide_eq_true_eq, h3, if_true, jsMul_num,
          jsDiv_num_of_ne hb'.ne', jsRound_num]
        exact ⟨(a : ℚ) * (H : ℚ) / b, (H : ℚ), rfl,
          floor_round_nonneg (by positivity), floor_round_nonneg hH'.le⟩
      · simp only [jsGt_num, decide_eq_true_eq, h3, if_false, jsRound_num]
        exact ⟨(W : ℚ), (H : ℚ), rfl,
          floor_round_nonneg hW'.le, floor_round_nonneg hH'.le⟩
  · rw [if_neg h1]
    by_cases h2 : (a : ℚ) < (W : ℚ)
    · simp only [h2, if_true, jsGe_num, decide_eq_true_eq, le_refl, if_true, jsMul_num,
        jsDiv_num_of_ne ha'.ne', jsRound_num]
      exact ⟨(a : ℚ), (b : ℚ) * (a : ℚ) / a, rfl,
        floor_round_nonneg ha'.le, floor_round_nonneg (by positivity)⟩
    · have h2' : (W : ℚ) ≤ (a : ℚ) := not_lt.1 h2
      simp only [h2, if_false, jsGe_num, decide_eq_true_eq, h2', if_true, jsMul_num,
        jsDiv_num_of_ne ha'.ne', jsRound_num]
      exact ⟨(W : ℚ), (b : ℚ) * (W : ℚ) / a, rfl,
        floor_round_nonneg hW'.le, floor_round_nonneg (by positivity)⟩

/-- Width-max planner outputs are rounded and nonnegative on positive
inputs. -/
theorem getDimensionsWidthMax_nonneg (a b M : ℤ)
    (ha : 0 < a) (hb : 0 < b) (hM : 0 < M) :
    roundedNonneg (getDimensionsWidthMax (.num (a : ℚ)) (.num (b : ℚ)) (.num (M : ℚ))) := by
  have ha' : (0 : ℚ) < (a : ℚ) := by exact_mod_cast ha
  have hb' : (0 : ℚ) < (b : ℚ) := by exact_mod_cast hb
  have hM' : (0 : ℚ) < (M : ℚ) := by exact_mod_cast hM
  simp only [getDimensionsWidthMax, jsMul_num, jsDiv_num_of_ne ha'.ne', jsGt_num,
    jsRound_num, decide_eq_true_eq]
  by_cases h : (b : ℚ) < (b : ℚ) * (M : ℚ) / a
  · simp only [h, if_true, jsRound_num]
    exact ⟨(a : ℚ), (b : ℚ), rfl, floor_round_nonneg ha'.le, floor_round_nonneg hb'.le⟩
  · simp only [h, if_false, jsRound_num]
    exact ⟨(M : ℚ), (b : ℚ) * (M : ℚ) / a, rfl,
      floor_round_nonneg hM'.le, floor_round_nonneg (by positivity)⟩

/-- Height-max planner outputs are rounded and nonnegative on positive
inputs. -/
theorem getDimensionsHeightMax_nonneg (a b M : ℤ)
    (ha : 0 < a) (hb : 0 < b) (hM : 0 < M) :
    roundedNonneg (getDimensionsHeightMax (.num (a : ℚ)) (.num (b : ℚ)) (.num (M : ℚ))) := by
  have ha' : (0 : ℚ) < (a : ℚ) := by exact_mod_cast ha
  have hb' : (0 : ℚ) < (b : ℚ) := by exact_mod_cast hb
  have hM' : (0 : ℚ) < (M : ℚ) := by exact_mod_cast hM
  simp only [getDimensionsHeightMax, jsMul_num, jsDiv_num_of_ne hb'.ne', jsGt_num,
    jsRound_num, decide_eq_true_eq]
  by_cases h : (a : ℚ) < (a : ℚ) * (M : ℚ) / b
  · simp only [h, if_true, jsRound_num]
    exact ⟨(a : ℚ), (b : ℚ), rfl, floor_round_nonneg ha'.le, floor_round_nonneg hb'.le⟩
  · simp only [h, if_false, jsRound_num]
    exact ⟨(a : ℚ) * (M : ℚ) / b, (M : ℚ), rfl,
      floor_round_nonneg (by positivity), floor_round_nonneg hM'.le⟩

/-- C8 counterexample: on the 1000 x 1 image with width maximum 100 the
derived height 1/10 rounds to zero, so the output is not positive. -/
theorem getDimensionsWidthMax_zero_height :
    getDimensionsWidthMax (.num 1000) (.num 1) (.num 100) = ⟨.num 100, .num 0⟩ := by
  have h : (⌊(1:ℚ) * 100 / 1000 + 1/2⌋ : ℤ) = 0 := floor_eval (by norm_num) (by norm_num)
  norm_num [getDimensionsWidthMax, floor_int_add_half 100, h]

/-- C8 amended: every geometry planner applied to positive integer inputs
returns integer dimensions obtained by nearest-integer rounding of the
exact ratio arithmetic, and they are nonnegative; they are not always
positive, since a derived axis below one half rounds to zero. -/
theorem planners_rounded_nonneg (a b W H M : ℤ)
    (ha : 0 < a) (hb : 0 < b) (hW : 0 < W) (hH : 0 < H) (hM : 0 < M) :
    roundedNonneg (getCropDimensions (.num (a : ℚ)) (.num (b : ℚ)) (.num (W : ℚ))
        (.num (H : ℚ))) ∧
    roundedNonneg (adaptDimensions (.num (a : ℚ)) (.num (b : ℚ)) (.num (W : ℚ))
        (.num (H : ℚ))) ∧
    roundedNonneg (getDimensionsWidthMax (.num (a : ℚ)) (.num (b : ℚ)) (.num (M : ℚ))) ∧
    roundedNonneg (getDimensionsHeightMax (.num (a : ℚ)) (.num (b : ℚ)) (.num (M : ℚ))) :=
  ⟨getCropDimensions_nonneg a b W H ha hb hW hH,
    adaptDimensions_nonneg a b W H ha hb hW hH,
    getDimensionsWidthMax_nonneg a b M ha hb hM,
    getDimensionsHeightMax_nonneg a b M ha hb hM⟩

/-- Witness for the amended C8 theorem at concrete positive inputs. -/
theorem planners_rounded_nonneg_witness :
    (0:ℤ) < 800 ∧
    (roundedNonneg (getCropDimensions (.num ((800:ℤ) : ℚ)) (.num ((600:ℤ) : ℚ))
        (.num ((100:ℤ) : ℚ)) (.num ((100:ℤ) : ℚ))) ∧
      roundedNonneg (adaptDimensions (.num ((800:ℤ) : ℚ)) (.num ((600:ℤ) : ℚ))
        (.num ((100:ℤ) : ℚ)) (.num ((100:ℤ) : ℚ))) ∧
      roundedNonneg (getDimensionsWidthMax (.num ((800:ℤ) : ℚ)) (.num ((600:ℤ) : ℚ))
        (.num ((50:ℤ) : ℚ))) ∧
      roundedNonneg (getDimensionsHeightMax (.num ((800:ℤ) : ℚ)) (.num ((600:ℤ) : ℚ))
        (.num ((50:ℤ) : ℚ)))) :=
  ⟨by norm_num,
    planners_rounded_nonneg 800 600 100 100 50 (by norm_num) (by norm_num) (by norm_num)
      (by norm_num) (by norm_num)⟩

/-- C7 counterexample: a 100 x 100 image, target 100 x 100 with crop and
explicit offsets 50/50: the post-resize canvas is 100 x 100 but the
planned crop rectangle reaches 150, outside the canvas. -/
theorem planVariantOps_crop_exceeds_canvas :
    planVariantOps 100 100 {}
        { name := "v", width := some 100, height := some 100,
          top := some 50, left := some 50, crop := true } =
      [BatchOp.resize ⟨.num 100, .num 100⟩, BatchOp.crop4 50 50 150 150] ∧
    ¬ ((50 : ℤ) + 100 ≤ 100) := by
  refine ⟨?_, by omega⟩
  norm_num [planVariantOps, truthyInt, adaptTruthy, cropOp, getCropDimensions,
    floor_int_add_half 100]

/-- C7 amended: with crop set, no adapt, both target dimensions set and
both requested offsets positive, the planned operations are a resize to
the cover dimensions followed by a crop whose rectangle uses the
requested offsets verbatim; the offsets are nonnegative, but the code
never clamps the rectangle to the post-resize canvas, so it stays inside
the canvas only when the configured offsets happen to satisfy the bound. -/
theorem planVariantOps_crop_verbatim (imgW imgH w h t l : ℤ) (cfg : Config) (c : VariantSpec)
    (hcrop : c.crop = true) (hadapt : adaptTruthy c.adapt = false)
    (hw : c.width = some w) (hh : c.height = some h) (hw0 : w ≠ 0) (hh0 : h ≠ 0)
    (ht : c.top = some t) (hl : c.left = some l) (htpos : 0 < t) (hlpos : 0 < l) :
    planVariantOps imgW imgH cfg c =
      [BatchOp.resize (getCropDimensions (.num (imgW : ℚ)) (.num (imgH : ℚ))
          (.num (w : ℚ)) (.num (h : ℚ))),
        BatchOp.crop4 l t (l + w) (t + h)] ∧
      0 ≤ l ∧ 0 ≤ t := by
  refine ⟨?_, by omega, by omega⟩
  simp [planVariantOps, truthyInt, cropOp, hw, hh, hw0, hh0, hcrop, hadapt, ht, hl,
    htpos, hlpos]

/-- Witness for the amended C7 theorem at a concrete in-bounds variant. -/
theorem planVariantOps_crop_verbatim_witness :
    planVariantOps 800 600 {}
        { name := "v", width := some 100, height := some 100,
          top := some 10, left := some 20, crop := true } =
      [BatchOp.resize (getCropDimensions (.num ((800:ℤ) : ℚ)) (.num ((600:ℤ) : ℚ))
          (.num ((100:ℤ) : ℚ)) (.num ((100:ℤ) : ℚ))),
        BatchOp.crop4 20 10 (20 + 100) (10 + 100)] ∧
      (0:ℤ) ≤ 20 ∧ (0:ℤ) ≤ 10 :=
  planVariantOps_crop_verbatim 800 600 100 100 10 20 {}
    { name := "v", width := some 100, height := some 100,
      top := some 10, left := some 20, crop := true }
    rfl rfl rfl rfl (by omega) (by omega) rfl rfl (by omega) (by omega)

/-- C4: once validation passes, a batch either returns the complete keyed
mapping with exactly one entry per configured variant in order (when
every task succeeds), or exactly the first failing task error, with no
partial results attached. -/
theorem upload_first_error_or_complete {E R : Type} (type : String) (cfg : Config)
    (fs : List VariantSpec) (runTask : VariantSpec → Except E (String × R))
    (htype : type ≠ "") (hfs : cfg.files = some fs) :
    (∃ m, upload type cfg runTask = .ok m ∧ fs.map runTask = m.map Except.ok) ∨
    (∃ e pre suf, upload type cfg runTask = .error (.task e) ∧
      fs.map runTask = pre ++ .error e :: suf ∧ ∀ x ∈ pre, x.isOk = true) := by
  rcases collectResults_dichotomy (fs.map runTask) with ⟨m, hm, hl⟩ | ⟨e, pre, suf, hc, hl, hpre⟩
  · exact Or.inl ⟨m, by simp [upload, htype, hfs, hm], hl⟩
  · exact Or.inr ⟨e, pre, suf, by simp [upload, htype, hfs, hc], hl, hpre⟩

/-- Witness for C4 on a concrete two-variant batch whose second task
fails. -/
theorem upload_first_error_or_complete_witness :
    ("jpg" : String) ≠ "" ∧
    ((∃ m, upload "jpg" ({ files := some [{ name := "a" }, { name := "b" }] } : Config)
          (fun c => if c.name = "a" then Except.ok (c.name, 0) else Except.error 7) =
            .ok m ∧
        [({ name := "a" } : VariantSpec), { name := "b" }].map
            (fun c => if c.name = "a" then Except.ok (c.name, (0:ℕ)) else Except.error (7:ℕ)) =
          m.map Except.ok) ∨
      (∃ e pre suf,
        upload "jpg" ({ files := some [{ name := "a" }, { name := "b" }] } : Config)
            (fun c => if c.name = "a" then Except.ok (c.name, 0) else Except.error 7) =
          .error (.task e) ∧
        [({ name := "a" } : VariantSpec), { name := "b" }].map
            (fun c => if c.name = "a" then Except.ok (c.name, (0:ℕ)) else Except.error (7:ℕ)) =
          pre ++ .error e :: suf ∧
        ∀ x ∈ pre, x.isOk = true)) :=
  ⟨by simp,
    upload_first_error_or_complete "jpg" { files := some [{ name := "a" }, { name := "b" }] }
      [{ name := "a" }, { name := "b" }]
      (fun c => if c.name = "a" then Except.ok (c.name, 0) else Except.error 7)
      (by simp) rfl⟩

/-- C9: every successfully processed variant is stored in the output
mapping under its key (its name when no key is set), with the url being
the static prefix plus the storage path and the filename being the
compiled template (the variant template when set, the batch default
otherwise) applied to the variant, followed by a dot and the source type
unless an omitExtension flag is set. -/
theorem upload_naming (g : GlobalConfig) (cfg : Config) (type : String)
    (compile : String → VariantSpec → String) (paths : VariantSpec → String)
    (fs : List VariantSpec) (c : VariantSpec)
    (htype : type ≠ "") (hfs : cfg.files = some fs) (hc : c ∈ fs)
    (hfmt : c.format = none ∨ ∃ f, c.format = some f ∧ f ≠ "")
    (hkey : c.key = none ∨ ∃ k, c.key = some k ∧ k ≠ "") :
    ∃ m, upload type cfg
        (fun v => (Except.ok (runVariant g cfg type compile (paths v) v) :
          Except Unit (String × VariantResult))) = .ok m ∧
      (c.key.getD c.name,
        ({ url := g.staticUrl ++ paths c,
           filename := compile (c.format.getD (default_format cfg)) c ++
             (if c.omitExtension || cfg.omitExtension then "" else "." ++ type) } :
          VariantResult)) ∈ m := by
  refine ⟨fs.map (fun v => runVariant g cfg type compile (paths v) v), ?_, ?_⟩
  · simp [upload, htype, hfs,
      collectResults_map_ok2 (fun v => runVariant g cfg type compile (paths v) v) fs]
  · have hk : mkKey c = c.key.getD c.name := by
      rcases hkey with h | ⟨k, hks, hk0⟩
      · simp [mkKey, jsOrS, h]
      · simp [mkKey, jsOrS, hks, hk0]
    have hf : jsOrS c.format (default_format cfg) = c.format.getD (default_format cfg) := by
      rcases hfmt with h | ⟨f, hfs2, hf0⟩
      · simp [jsOrS, h]
      · simp [jsOrS, hfs2, hf0]
    have hval : runVariant g cfg type compile (paths c) c =
        (c.key.getD c.name,
          ({ url := g.staticUrl ++ paths c,
             filename := compile (c.format.getD (default_format cfg)) c ++
               (if c.omitExtension || cfg.omitExtension then "" else "." ++ type) } :
            VariantResult)) := by
      simp [runVariant, mkFilename, hk, hf]
    rw [← hval]
    exact List.mem_map_of_mem _ hc

/-- Witness for C9 on the concrete one-variant fixture. -/
theorem upload_naming_witness :
    ∃ m, upload "jpg" cfg9
        (fun v => (Except.ok (runVariant g9 cfg9 "jpg" (fun t _ => t)
          ((fun _ => "p") v) v) : Except Unit (String × VariantResult))) = .ok m ∧
      (c9.key.getD c9.name,
        ({ url := g9.staticUrl ++ (fun (_ : VariantSpec) => "p") c9,
           filename := (fun (t : String) (_ : VariantSpec) => t)
               (c9.format.getD (default_format cfg9)) c9 ++
             (if c9.omitExtension || cfg9.omitExtension then "" else "." ++ "jpg") } :
          VariantResult)) ∈ m :=
  upload_naming g9 cfg9 "jpg" (fun t _ => t) (fun _ => "p") [c9] c9
    (by simp) rfl (by simp) (Or.inl rfl) (Or.inl rfl)

end VoilabImage
